import Mathlib

/-!
Verification of the change-detection engine of the kodari-corp.github.io
repository (scripts/detect-changes.js and the DynamicGroupChangeDetector /
ChangeAnalyzer layers).  JavaScript objects are embedded as association
lists in their JS enumeration order; absent / `undefined` / `null` fields
are embedded as `Option.none`; a JS function that can throw is embedded as
a function into `Except String`.
-/

namespace OpenApiDiff

/-- JS string primitives such as `toUpperCase` are re-implemented on
`String.data` (lists of characters) so that the kernel can evaluate them;
the sources only apply them to ASCII method names, paths and file names. -/
def jsToUpperCase (s : String) : String :=
  String.mk (s.data.map Char.toUpper)

/-- `s.startsWith(p)` of JS. -/
def strStartsWith (s p : String) : Bool :=
  p.data.isPrefixOf s.data

/-- `s.endsWith(p)` of JS. -/
def strEndsWith (s p : String) : Bool :=
  s.data.reverse.take p.data.length = p.data.reverse

/-- `s.slice(n)` / dropping the first `n` characters. -/
def strDrop (s : String) (n : Nat) : String :=
  String.mk (s.data.drop n)

/-- dropping the last `n` characters. -/
def strDropRight (s : String) (n : Nat) : String :=
  String.mk (s.data.take (s.data.length - n))

/-- A summary count in a saved JSON report: the sources write numbers in
every report except the first-version report, whose `newEndpoints` is the
string `'unknown'`. -/
inductive JsonVal where
  | num (n : Nat)
  | str (s : String)
deriving DecidableEq

/-- One entry of an operation's `parameters` array.  The JS field `in` is
called `location` here (`in` is reserved in Lean). -/
structure Parameter where
  name : String
  location : String
  required : Bool
deriving DecidableEq

/-- A response (or request) schema: the engine only ever reads the key
names of `properties` and the `required` array, so only those are kept. -/
structure Schema where
  properties : Option (List String)
  required : Option (List String)
deriving DecidableEq

/-- One entry of a response's `content` map. -/
structure MediaType where
  schema : Option Schema
deriving DecidableEq

/-- A single response object: `content` maps content types to media-type
objects; OpenAPI 2.0 documents instead carry a bare `schema` field. -/
structure Response where
  content : Option (List (String × MediaType))
  schema : Option Schema
deriving DecidableEq

/-- One operation (a method entry of a path item). -/
structure Operation where
  summary : Option String
  description : Option String
  parameters : Option (List Parameter)
  responses : Option (List (String × Response))
deriving DecidableEq

/-- A path item: methods-mapping from lowercase verb to operation.  The
reserved key `parameters` (path-level shared parameters) may be present;
the engine always skips it before reading its value, so its value is
embedded as an (unread) `Operation` placeholder. -/
def PathItem := List (String × Operation)
deriving instance DecidableEq for PathItem

/-- A parsed document: a tree with an optional `paths` mapping. -/
structure Document where
  paths : Option (List (String × PathItem))
deriving DecidableEq

/-- `NewEndpoint` change record. -/
structure NewEndpoint where
  path : String
  method : String
  summary : String
deriving DecidableEq

/-- The `parameter` field of a `REQUIRED_PARAMETER_ADDED` record. -/
structure ParamRef where
  name : String
  location : String
deriving DecidableEq

/-- `BreakingChange` change record; `parameter` and `statusCode` are only
present on some variants. -/
structure BreakingChange where
  type : String
  path : String
  method : String
  description : String
  parameter : Option ParamRef := none
  statusCode : Option String := none
deriving DecidableEq

/-- `ModifiedEndpoint` change record. -/
structure ModifiedEndpoint where
  path : String
  method : String
  changes : List String
deriving DecidableEq

/-- The per-group summary block. -/
structure Summary where
  breakingChanges : Nat
  newEndpoints : Nat
  modifiedEndpoints : Nat
  riskLevel : String
deriving DecidableEq

/-- The `this.changes` accumulator of `ChangeDetector`. -/
structure Changes where
  breaking : List BreakingChange
  newEndpoints : List NewEndpoint
  modifiedEndpoints : List ModifiedEndpoint
  summary : Summary
deriving DecidableEq

/-- The value `this.changes` is initialised to in the constructor. -/
def initialChanges : Changes :=
  { breaking := [], newEndpoints := [], modifiedEndpoints := [],
    summary := { breakingChanges := 0, newEndpoints := 0,
                 modifiedEndpoints := 0, riskLevel := "low" } }

/-- `Object.keys` of an embedded JS object. -/
def keysOf {α : Type} (m : List (String × α)) : List String :=
  m.map Prod.fst

/-- `this.spec.paths || \x7b\x7d`. -/
def pathsList (d : Document) : List (String × PathItem) :=
  d.paths.getD []

/-- `op?.summary || 'No summary'` — JS `||` also replaces the empty
string, which is falsy. -/
def summaryOrDefault (o : Option String) : String :=
  match o with
  | some s => if s = "" then "No summary" else s
  | none => "No summary"

/-- `ChangeDetector.loadSpec`: `none` content stands for a missing file
(`fs.existsSync` false); the parser argument abstracts `yaml.load` /
`JSON.parse`, returning `none` when parsing throws (the `catch` branch).
The function is total: no exception reaches the caller. -/
def loadSpec (fileContent : Option String) (parse : String → Option Document) :
    Option Document :=
  match fileContent with
  | none => none
  | some c => parse c

/-- `ChangeDetector.detectNewEndpoints`, returning the records pushed onto
`this.changes.newEndpoints`. -/
def detectNewEndpoints (oldSpec newSpec : Document) : List NewEndpoint :=
  let oldPaths := keysOf (pathsList oldSpec)
  (keysOf (pathsList newSpec)).flatMap (fun path =>
    let newItem := ((pathsList newSpec).lookup path).getD []
    if path ∉ oldPaths then
      (keysOf newItem).filterMap (fun method =>
        if method ≠ "parameters" then
          some { path := path, method := jsToUpperCase method,
                 summary := summaryOrDefault ((newItem.lookup method).bind (·.summary)) }
        else none)
    else
      let oldItem := ((pathsList oldSpec).lookup path).getD []
      (keysOf newItem).filterMap (fun method =>
        if method ≠ "parameters" ∧ method ∉ keysOf oldItem then
          some { path := path, method := jsToUpperCase method,
                 summary := summaryOrDefault ((newItem.lookup method).bind (·.summary)) }
        else none))

/-- First-occurrence deduplication, the effect of feeding a JS array into
`new Set(...)` and iterating the set. -/
def dedupFirstAux {α : Type} [DecidableEq α] (seen : List α) : List α → List α
  | [] => []
  | a :: l => if a ∈ seen then dedupFirstAux seen l else a :: dedupFirstAux (a :: seen) l

/-- Iteration order of `new Set(l)`. -/
def dedupFirst {α : Type} [DecidableEq α] (l : List α) : List α :=
  dedupFirstAux [] l

/-- `param.split(':')` of JS, on character lists. -/
def splitColonChars : List Char → List Char → List (List Char)
  | [], acc => [acc]
  | c :: cs, acc => if c = ':' then acc :: splitColonChars cs [] else splitColonChars cs (acc ++ [c])

/-- `param.split(':')` of JS. -/
def jsSplitColon (s : String) : List String :=
  (splitColonChars s.data []).map String.mk

/-- `ChangeDetector.checkRequiredParameters`: required parameters are
keyed by the template string `location:name`; a key required in `new` but
not in `old` yields one `REQUIRED_PARAMETER_ADDED` record whose
`parameter` is recovered by splitting the key at `':'` again. -/
def checkRequiredParameters (path method : String) (oldOperation newOperation : Operation) :
    List BreakingChange :=
  let oldParams := oldOperation.parameters.getD []
  let newParams := newOperation.parameters.getD []
  let oldRequired := (oldParams.filter (·.required)).map (fun p => p.location ++ ":" ++ p.name)
  let newRequired := dedupFirst ((newParams.filter (·.required)).map (fun p => p.location ++ ":" ++ p.name))
  newRequired.filterMap (fun param =>
    if param ∉ oldRequired then
      let parts := jsSplitColon param
      let location := parts.getD 0 ""
      let name := parts.getD 1 ""
      some { type := "REQUIRED_PARAMETER_ADDED", path := path,
             method := jsToUpperCase method,
             parameter := some { name := name, location := location },
             description := "필수 파라미터가 추가되었습니다: " ++ name ++ " (" ++ location ++ ")" }
    else none)

/-- `ChangeDetector.extractResponseSchema`. -/
def extractResponseSchema (response : Response) : Option Schema :=
  (((response.content.getD []).lookup "application/json").bind (·.schema)).orElse (fun _ =>
    (((response.content.getD []).lookup "application/xml").bind (·.schema)).orElse (fun _ =>
      response.schema))

/-- `ChangeDetector.hasSchemaBreakingChanges`. -/
def hasSchemaBreakingChanges (oldSchema newSchema : Option Schema) : Bool :=
  match oldSchema, newSchema with
  | some o, some n =>
      let oldProps := o.properties.getD []
      let newProps := n.properties.getD []
      let oldRequired := o.required.getD []
      let newRequired := n.required.getD []
      oldRequired.any (fun prop => !(newRequired.contains prop)) ||
        oldProps.any (fun prop => !(newProps.contains prop))
  | _, _ => false

/-- `ChangeDetector.checkResponseChanges`: a response object looked up
under a status code is always truthy in JS, so `newResponses[statusCode]`
being truthy is embedded as the lookup being `some`. -/
def checkResponseChanges (path method : String) (oldOperation newOperation : Operation) :
    List BreakingChange :=
  let oldResponses := oldOperation.responses.getD []
  let newResponses := newOperation.responses.getD []
  (keysOf oldResponses).filterMap (fun statusCode =>
    if strStartsWith statusCode "2" ∧ (newResponses.lookup statusCode).isSome then
      match oldResponses.lookup statusCode, newResponses.lookup statusCode with
      | some oldR, some newR =>
          if hasSchemaBreakingChanges (extractResponseSchema oldR) (extractResponseSchema newR) then
            some { type := "RESPONSE_SCHEMA_CHANGED", path := path,
                   method := jsToUpperCase method, statusCode := some statusCode,
                   description := "응답 스키마가 변경되었습니다 (" ++ statusCode ++ ")" }
          else none
      | _, _ => none
    else none)

/-- `ChangeDetector.detectBreakingChanges`, returning the records pushed
onto `this.changes.breaking` in order. -/
def detectBreakingChanges (oldSpec newSpec : Document) : List BreakingChange :=
  let oldPaths := pathsList oldSpec
  let newPaths := pathsList newSpec
  (keysOf oldPaths).flatMap (fun path =>
    let oldItem := (oldPaths.lookup path).getD []
    if (newPaths.lookup path).isNone then
      (keysOf oldItem).filterMap (fun method =>
        if method ≠ "parameters" then
          some { type := "ENDPOINT_REMOVED", path := path,
                 method := jsToUpperCase method,
                 description := "엔드포인트가 삭제되었습니다" }
        else none)
    else
      (keysOf oldItem).flatMap (fun method =>
        if method = "parameters" then []
        else
          match oldItem.lookup method with
          | none => []
          | some oldOperation =>
            match ((newPaths.lookup path).getD []).lookup method with
            | none =>
                [{ type := "METHOD_REMOVED", path := path,
                   method := jsToUpperCase method,
                   description := "HTTP 메서드가 삭제되었습니다" }]
            | some newOperation =>
                checkRequiredParameters path method oldOperation newOperation ++
                  checkResponseChanges path method oldOperation newOperation))

/-- `ChangeDetector.detectModifiedEndpoints`. -/
def detectModifiedEndpoints (oldSpec newSpec : Document) : List ModifiedEndpoint :=
  let oldPaths := pathsList oldSpec
  let newPaths := pathsList newSpec
  (keysOf oldPaths).flatMap (fun path =>
    if (newPaths.lookup path).isNone then []
    else
      let oldItem := (oldPaths.lookup path).getD []
      (keysOf oldItem).filterMap (fun method =>
        if method = "parameters" then none
        else
          match oldItem.lookup method, ((newPaths.lookup path).getD []).lookup method with
          | some oldOperation, some newOperation =>
              let changes :=
                (if oldOperation.summary ≠ newOperation.summary then ["Summary updated"] else []) ++
                (if oldOperation.description ≠ newOperation.description then ["Description updated"] else []) ++
                (if ((newOperation.parameters.getD []).filter (fun p => !p.required)).length >
                    ((oldOperation.parameters.getD []).filter (fun p => !p.required)).length
                 then ["Optional parameters added"] else [])
              if changes ≠ [] then
                some { path := path, method := jsToUpperCase method, changes := changes }
              else none
          | _, _ => none))

/-- `ChangeDetector.calculateRiskLevel` (per-group thresholds). -/
def calculateRiskLevel (breaking modified : Nat) : String :=
  if breaking > 5 then "critical"
  else if breaking > 2 then "high"
  else if breaking > 0 ∨ modified > 10 then "medium"
  else "low"

/-- `ChangeDetector.analyze`: short-circuits to the initial (empty)
changes when either loaded spec is absent; otherwise runs the three
detectors (each of which sets its summary count to the pushed list's
length) and the risk classifier. -/
def analyze (oldSpec newSpec : Option Document) : Changes :=
  match oldSpec, newSpec with
  | some o, some n =>
      let ne := detectNewEndpoints o n
      let br := detectBreakingChanges o n
      let me := detectModifiedEndpoints o n
      { breaking := br, newEndpoints := ne, modifiedEndpoints := me,
        summary := { breakingChanges := br.length, newEndpoints := ne.length,
                     modifiedEndpoints := me.length,
                     riskLevel := calculateRiskLevel br.length me.length } }
  | _, _ => initialChanges

/-- `DynamicGroupChangeDetector.extractGroupName`: strips the leading
literal `apiDocs-` and one trailing extension `.json` / `.yaml` / `.yml`
(the two anchored regexes). -/
def extractGroupName (filename : String) : String :=
  let s1 := if strStartsWith filename "apiDocs-" then strDrop filename 8 else filename
  if strEndsWith s1 ".json" then strDropRight s1 5
  else if strEndsWith s1 ".yaml" then strDropRight s1 5
  else if strEndsWith s1 ".yml" then strDropRight s1 4
  else s1

/-- The filename pattern of `scanGroupFiles`'s filter. -/
def matchesGroupPattern (file : String) : Bool :=
  strStartsWith file "apiDocs-" &&
    (strEndsWith file ".json" || strEndsWith file ".yaml" || strEndsWith file ".yml")

/-- One element of the array `scanGroupFiles` returns. -/
structure GroupFile where
  name : String
  path : String
  file : String
deriving DecidableEq

/-- `path.join(directory, file)` for the plain relative paths used here. -/
def pathJoin (directory file : String) : String :=
  directory ++ "/" ++ file

/-- Code-point comparison of group names, standing in for
`a.name.localeCompare(b.name)` (the scanned names are plain ASCII). -/
def charListLe : List Char → List Char → Bool
  | [], _ => true
  | _ :: _, [] => false
  | a :: as, b :: bs =>
      if a.toNat < b.toNat then true
      else if a.toNat = b.toNat then charListLe as bs
      else false

/-- Stable insertion used to model the stable `Array.prototype.sort`. -/
def insertByName (g : GroupFile) : List GroupFile → List GroupFile
  | [] => [g]
  | h :: t => if charListLe g.name.data h.name.data ∧ ¬ g.name = h.name then g :: h :: t
              else h :: insertByName g t

/-- Stable sort by group name, modelling `.sort((a, b) => a.name.localeCompare(b.name))`. -/
def sortByName (l : List GroupFile) : List GroupFile :=
  l.foldl (fun acc g => insertByName g acc) []

/-- The directory layer seen by `scanGroupFiles`: a mapping from directory
path to its file listing; `none` stands for `fs.existsSync` being false
(in which case, as when `readdirSync` throws, the scan returns `[]`). -/
def DirListing := List (String × List String)

/-- `DynamicGroupChangeDetector.scanGroupFiles`. -/
def scanGroupFiles (fsDirs : DirListing) (directory : String) : List GroupFile :=
  match List.lookup directory fsDirs with
  | none => []
  | some files =>
      sortByName ((files.filter matchesGroupPattern).map (fun file =>
        { name := extractGroupName file, path := pathJoin directory file, file := file }))

/-- `DynamicGroupChangeDetector.generateDisplayName`: fixed table with a
capitalisation fallback. -/
def generateDisplayName (groupName : String) : String :=
  if groupName = "all" then "Complete API"
  else if groupName = "api" then "Public API"
  else if groupName = "internal" then "Internal API"
  else if groupName = "admin" then "Admin API"
  else if groupName = "mobile" then "Mobile API"
  else if groupName = "partner" then "Partner API"
  else if groupName = "webhook" then "Webhook API"
  else
    (match groupName.data with
     | [] => ""
     | c :: cs => String.mk (c.toUpper :: cs)) ++ " API"

/-- One value of the `this.groups` map. -/
structure Group where
  name : String
  displayName : String
  newPath : String
  oldPath : Option String
deriving DecidableEq

/-- Assignment `this.groups[group.name] = ...`: overwrites in place if the
key exists, appends otherwise (JS property order). -/
def upsertGroup (m : List (String × Group)) (k : String) (v : Group) : List (String × Group) :=
  if m.any (fun e => e.1 = k) then m.map (fun e => if e.1 = k then (k, v) else e)
  else m ++ [(k, v)]

/-- `DynamicGroupChangeDetector.discoverGroups`.  The constructor's
`oldVersionDir` may be `null`/absent (`none`) or empty; the source then
evaluates `this.oldVersionDir ? this.scanGroupFiles(...) : \x7b\x7d`, so
`oldGroups` is a plain object without a `.find` method, and the first
iteration of `newGroups.forEach` throws a `TypeError`.  The `Except`
result embeds that throw. -/
def discoverGroups (fsDirs : DirListing) (oldVersionDir : Option String)
    (newVersionDir : String) : Except String (List (String × Group)) :=
  let newGroups := scanGroupFiles fsDirs newVersionDir
  let oldGroups : Option (List GroupFile) :=
    match oldVersionDir with
    | some d => if d = "" then none else some (scanGroupFiles fsDirs d)
    | none => none
  match oldGroups with
  | some ogs =>
      Except.ok (newGroups.foldl (fun m g =>
        let matchingOldGroup := ogs.find? (fun og => og.name == g.name)
        upsertGroup m g.name
          { name := g.name, displayName := generateDisplayName g.name,
            newPath := g.path, oldPath := matchingOldGroup.map (·.path) }) [])
  | none =>
      if newGroups.isEmpty then Except.ok []
      else Except.error "oldGroups.find is not a function"

/-- `groupInfo` block of a grouped-report entry.  The success branch sets
`newFilePath` / `oldFilePath` and no `error`; the catch branch sets
`error` and leaves the file paths absent. -/
structure GroupInfo where
  name : String
  displayName : String
  hasOldVersion : Bool
  newFilePath : Option String := none
  oldFilePath : Option String := none
  error : Option String := none
deriving DecidableEq

/-- One value of the `this.groupedChanges` map. -/
structure GroupEntry where
  breaking : List BreakingChange
  newEndpoints : List NewEndpoint
  modifiedEndpoints : List ModifiedEndpoint
  summary : Summary
  groupInfo : GroupInfo
deriving DecidableEq

/-- JS truthiness of `group.oldPath` (`!!group.oldPath`): `null` and the
empty string are falsy. -/
def jsTruthyOptStr (o : Option String) : Bool :=
  match o with
  | some s => s ≠ ""
  | none => false

/-- The grouped-changes entry built in the `try` branch of
`analyzeAllGroups`. -/
def successEntry (g : Group) (changes : Changes) : GroupEntry :=
  { breaking := changes.breaking, newEndpoints := changes.newEndpoints,
    modifiedEndpoints := changes.modifiedEndpoints, summary := changes.summary,
    groupInfo := { name := g.name, displayName := g.displayName,
                   hasOldVersion := jsTruthyOptStr g.oldPath,
                   newFilePath := some g.newPath, oldFilePath := g.oldPath } }

/-- The fallback entry built in the `catch` branch of `analyzeAllGroups`. -/
def errorEntry (g : Group) (msg : String) : GroupEntry :=
  { breaking := [], newEndpoints := [], modifiedEndpoints := [],
    summary := { breakingChanges := 0, newEndpoints := 0,
                 modifiedEndpoints := 0, riskLevel := "unknown" },
    groupInfo := { name := g.name, displayName := g.displayName,
                   hasOldVersion := jsTruthyOptStr g.oldPath,
                   error := some msg } }

/-- `DynamicGroupChangeDetector.analyzeAllGroups`, per-group phase: the
`runDetector` argument abstracts `new ChangeDetector(group.oldPath,
group.newPath).analyze()`; `Except.error msg` stands for that call
throwing `msg`, which the surrounding `try`/`catch` turns into the
fallback entry before the loop continues with the next group.  `groups`
is `this.groups` in JS property order (its keys, hence the entries'
names, are distinct). -/
def analyzeAllGroups (runDetector : Group → Except String Changes)
    (groups : List Group) : List (String × GroupEntry) :=
  groups.map (fun g =>
    (g.name,
     match runDetector g with
     | Except.ok changes => successEntry g changes
     | Except.error msg => errorEntry g msg))

/-- The aggregate summary block. -/
structure OverallSummary where
  totalBreakingChanges : Nat
  totalNewEndpoints : Nat
  totalModifiedEndpoints : Nat
  overallRiskLevel : String
deriving DecidableEq

/-- `DynamicGroupChangeDetector.calculateOverallSummary`: sums the
per-group summary counts, then applies the aggregate thresholds to a
summary initialised with `overallRiskLevel = 'low'`. -/
def calculateOverallSummary (groupedChanges : List (String × GroupEntry)) : OverallSummary :=
  let totals := groupedChanges.foldl (fun acc g =>
      { acc with
        totalBreakingChanges := acc.totalBreakingChanges + g.2.summary.breakingChanges,
        totalNewEndpoints := acc.totalNewEndpoints + g.2.summary.newEndpoints,
        totalModifiedEndpoints := acc.totalModifiedEndpoints + g.2.summary.modifiedEndpoints })
    { totalBreakingChanges := 0, totalNewEndpoints := 0,
      totalModifiedEndpoints := 0, overallRiskLevel := "low" }
  if totals.totalBreakingChanges > 10 then { totals with overallRiskLevel := "critical" }
  else if totals.totalBreakingChanges > 5 then { totals with overallRiskLevel := "high" }
  else if totals.totalBreakingChanges > 0 ∨ totals.totalModifiedEndpoints > 20 then
    { totals with overallRiskLevel := "medium" }
  else totals

/-- The grouped report (`generatedAt` timestamps are outside the model). -/
structure GroupedReport where
  totalGroups : Nat
  groups : List (String × GroupEntry)
  summary : OverallSummary
deriving DecidableEq

/-- `DynamicGroupChangeDetector.generateGroupedReport`. -/
def generateGroupedReport (groupedChanges : List (String × GroupEntry)) : GroupedReport :=
  { totalGroups := groupedChanges.length, groups := groupedChanges,
    summary := calculateOverallSummary groupedChanges }

/-- The `changes` block of a saved (legacy) report. -/
structure ReportChanges where
  breaking : List BreakingChange
  newEndpoints : List NewEndpoint
  modifiedEndpoints : List ModifiedEndpoint
deriving DecidableEq

/-- The summary block a legacy report carries: either a per-group summary
(the `all` branch) or the aggregate summary (the integrated branch) — JS
simply stores whichever object it has. -/
inductive LegacySummary where
  | group (s : Summary)
  | overall (s : OverallSummary)
deriving DecidableEq

/-- The legacy unified report (without `generatedAt`). -/
structure LegacyReport where
  summary : LegacySummary
  changes : ReportChanges
deriving DecidableEq

/-- `DynamicGroupChangeDetector.generateLegacyCompatibleReport`: uses the
group literally named `all` verbatim when present, otherwise concatenates
every group's lists and pairs them with the grouped report's aggregate
summary. -/
def generateLegacyCompatibleReport (groupedChanges : List (String × GroupEntry))
    (groupedReport : GroupedReport) : LegacyReport :=
  match List.lookup "all" groupedChanges with
  | some allGroup =>
      { summary := LegacySummary.group allGroup.summary,
        changes := { breaking := allGroup.breaking,
                     newEndpoints := allGroup.newEndpoints,
                     modifiedEndpoints := allGroup.modifiedEndpoints } }
  | none =>
      let integrated := groupedChanges.foldl (fun acc g =>
          { breaking := acc.breaking ++ g.2.breaking,
            newEndpoints := acc.newEndpoints ++ g.2.newEndpoints,
            modifiedEndpoints := acc.modifiedEndpoints ++ g.2.modifiedEndpoints })
        ({ breaking := [], newEndpoints := [], modifiedEndpoints := [] } : ReportChanges)
      { summary := LegacySummary.overall groupedReport.summary, changes := integrated }

/-- Summary block of a saved JSON report; counts are `JsonVal` because the
first-version report stores the string `'unknown'` where every other
report stores a number. -/
structure ReportSummary where
  breakingChanges : JsonVal
  newEndpoints : JsonVal
  modifiedEndpoints : JsonVal
  riskLevel : String
deriving DecidableEq

/-- A saved JSON report (without `generatedAt`). -/
structure Report where
  summary : ReportSummary
  changes : ReportChanges
  error : Option String := none
  note : Option String := none
deriving DecidableEq

/-- The report object `ChangeDetector.saveReport` writes, from the
detector's `this.changes`. -/
def saveReport (c : Changes) : Report :=
  { summary := { breakingChanges := JsonVal.num c.summary.breakingChanges,
                 newEndpoints := JsonVal.num c.summary.newEndpoints,
                 modifiedEndpoints := JsonVal.num c.summary.modifiedEndpoints,
                 riskLevel := c.summary.riskLevel },
    changes := { breaking := c.breaking, newEndpoints := c.newEndpoints,
                 modifiedEndpoints := c.modifiedEndpoints } }

/-- The report `ChangeAnalyzer.createFirstVersionReport` writes. -/
def createFirstVersionReport : Report :=
  { summary := { breakingChanges := JsonVal.num 0,
                 newEndpoints := JsonVal.str "unknown",
                 modifiedEndpoints := JsonVal.num 0, riskLevel := "low" },
    changes := { breaking := [], newEndpoints := [], modifiedEndpoints := [] },
    note := some "First version - no previous version to compare" }

/-- The report `ChangeAnalyzer.createErrorReport` writes. -/
def createErrorReport (msg : String) : Report :=
  { summary := { breakingChanges := JsonVal.num 0, newEndpoints := JsonVal.num 0,
                 modifiedEndpoints := JsonVal.num 0, riskLevel := "unknown" },
    changes := { breaking := [], newEndpoints := [], modifiedEndpoints := [] },
    error := some msg,
    note := some "Change detection failed - see error field for details" }

/-- The spec's per-group classifier, §4.3, written from the spec's words
for comparison with `calculateRiskLevel`. -/
def classifySpec (breaking modified : Nat) : String :=
  if breaking > 5 then "critical"
  else if breaking > 2 then "high"
  else if breaking > 0 ∨ modified > 10 then "medium"
  else "low"

/-- The spec's aggregate classifier, §4.3, written from the spec's words
for comparison with `calculateOverallSummary`. -/
def aggregateClassifySpec (totalBreaking totalModified : Nat) : String :=
  if totalBreaking > 10 then "critical"
  else if totalBreaking > 5 then "high"
  else if totalBreaking > 0 ∨ totalModified > 20 then "medium"
  else "low"

lemma lookup_eq_some_of_mem_keys {α : Type} {l : List (String × α)} {k : String}
    (h : k ∈ keysOf l) : ∃ v, l.lookup k = some v := by
  induction l with
  | nil => simp [keysOf] at h
  | cons hd t ih =>
      simp only [keysOf, List.map_cons, List.mem_cons] at h
      by_cases hc : k = hd.1
      · exact ⟨hd.2, by simp [List.lookup, hc]⟩
      · have ht : k ∈ keysOf t := by
          rcases h with h | h
          · exact absurd h hc
          · simpa [keysOf] using h
        have hb : (k == hd.1) = false := by simp [hc]
        obtain ⟨v, hv⟩ := ih ht
        exact ⟨v, by simp [List.lookup, hb, hv]⟩

lemma mem_of_mem_dedupFirstAux {α : Type} [DecidableEq α] {x : α} :
    ∀ {l seen : List α}, x ∈ dedupFirstAux seen l → x ∈ l := by
  intro l
  induction l with
  | nil => intro seen h; simp [dedupFirstAux] at h
  | cons a t ih =>
      intro seen h
      simp only [dedupFirstAux] at h
      by_cases ha : a ∈ seen
      · rw [if_pos ha] at h
        exact List.mem_cons_of_mem _ (ih h)
      · rw [if_neg ha] at h
        rcases List.mem_cons.mp h with h | h
        · exact h ▸ List.mem_cons_self _ _
        · exact List.mem_cons_of_mem _ (ih h)

lemma mem_of_mem_dedupFirst {α : Type} [DecidableEq α] {x : α} {l : List α}
    (h : x ∈ dedupFirst l) : x ∈ l :=
  mem_of_mem_dedupFirstAux h

/-- **C2.** The per-group risk classifier is exactly the piecewise
function of §4.3, including the spec's sample values. -/
theorem c2_per_group_risk_classifier :
    (∀ b m, calculateRiskLevel b m = classifySpec b m) ∧
    (∀ m, calculateRiskLevel 6 m = "critical") ∧
    (∀ m, calculateRiskLevel 3 m = "high") ∧
    calculateRiskLevel 1 0 = "medium" ∧
    calculateRiskLevel 0 11 = "medium" ∧
    calculateRiskLevel 0 0 = "low" := by
  refine ⟨fun b m => rfl, fun m => ?_, fun m => ?_, rfl, rfl, rfl⟩
  · simp [calculateRiskLevel]
  · norm_num [calculateRiskLevel]

/-- **C3.** When the old document is absent — missing file or unparsable
content — `loadSpec` returns `none` (total, so nothing is thrown) and
`analyze` returns the initial empty change set with risk `low`. -/
theorem c3_absent_old_empty_changeset (fileContent : Option String)
    (parse : String → Option Document) (newDoc : Option Document)
    (h : fileContent = none ∨ ∃ c, fileContent = some c ∧ parse c = none) :
    loadSpec fileContent parse = none ∧
      analyze (loadSpec fileContent parse) newDoc = initialChanges ∧
      initialChanges.summary =
        { breakingChanges := 0, newEndpoints := 0, modifiedEndpoints := 0,
          riskLevel := "low" } := by
  have hl : loadSpec fileContent parse = none := by
    rcases h with h | ⟨c, hc, hp⟩
    · rw [h]; rfl
    · rw [hc]; simpa [loadSpec] using hp
  refine ⟨hl, ?_, rfl⟩
  rw [hl]
  cases newDoc <;> rfl

theorem c3_witness :
    ((none : Option String) = none ∨
      ∃ c, (none : Option String) = some c ∧ (fun (_ : String) => (none : Option Document)) c = none) ∧
    (loadSpec none (fun _ => none) = none ∧
      analyze (loadSpec none (fun _ => none)) none = initialChanges ∧
      initialChanges.summary =
        { breakingChanges := 0, newEndpoints := 0, modifiedEndpoints := 0,
          riskLevel := "low" }) :=
  ⟨Or.inl rfl, c3_absent_old_empty_changeset none (fun _ => none) none (Or.inl rfl)⟩

/-- **C5 (amended).** Summary counts equal list lengths for every normal
comparison report and every error report, and for the `breakingChanges`
and `modifiedEndpoints` fields of the first-version report — whose
`newEndpoints` count, however, is the string `'unknown'`, not the length
of its (empty) `newEndpoints` list. -/
theorem c5_summary_counts_amended :
    (∀ oldSpec newSpec : Option Document,
      (saveReport (analyze oldSpec newSpec)).summary.breakingChanges =
        JsonVal.num (saveReport (analyze oldSpec newSpec)).changes.breaking.length ∧
      (saveReport (analyze oldSpec newSpec)).summary.newEndpoints =
        JsonVal.num (saveReport (analyze oldSpec newSpec)).changes.newEndpoints.length ∧
      (saveReport (analyze oldSpec newSpec)).summary.modifiedEndpoints =
        JsonVal.num (saveReport (analyze oldSpec newSpec)).changes.modifiedEndpoints.length) ∧
    (∀ msg,
      (createErrorReport msg).summary.breakingChanges =
        JsonVal.num (createErrorReport msg).changes.breaking.length ∧
      (createErrorReport msg).summary.newEndpoints =
        JsonVal.num (createErrorReport msg).changes.newEndpoints.length ∧
      (createErrorReport msg).summary.modifiedEndpoints =
        JsonVal.num (createErrorReport msg).changes.modifiedEndpoints.length) ∧
    (createFirstVersionReport.summary.breakingChanges =
        JsonVal.num createFirstVersionReport.changes.breaking.length ∧
      createFirstVersionReport.summary.modifiedEndpoints =
        JsonVal.num createFirstVersionReport.changes.modifiedEndpoints.length ∧
      createFirstVersionReport.summary.newEndpoints = JsonVal.str "unknown") := by
  refine ⟨fun o n => ?_, fun msg => ⟨rfl, rfl, rfl⟩, rfl, rfl, rfl⟩
  cases o <;> cases n <;> exact ⟨rfl, rfl, rfl⟩

/-- **C5, counterexample.** The first-version report violates the claimed
invariant on its `newEndpoints` field: the summary stores the string
`'unknown'` while the change list is empty (length `0`). -/
theorem c5_counterexample :
    ¬ (createFirstVersionReport.summary.newEndpoints =
        JsonVal.num createFirstVersionReport.changes.newEndpoints.length) := by
  simp [createFirstVersionReport]

lemma foldl_reportChanges (gc : List (String × GroupEntry)) :
    ∀ init : ReportChanges,
      gc.foldl (fun acc g =>
        { breaking := acc.breaking ++ g.2.breaking,
          newEndpoints := acc.newEndpoints ++ g.2.newEndpoints,
          modifiedEndpoints := acc.modifiedEndpoints ++ g.2.modifiedEndpoints }) init =
      { breaking := init.breaking ++ (gc.map (fun g => g.2.breaking)).flatten,
        newEndpoints := init.newEndpoints ++ (gc.map (fun g => g.2.newEndpoints)).flatten,
        modifiedEndpoints :=
          init.modifiedEndpoints ++ (gc.map (fun g => g.2.modifiedEndpoints)).flatten } := by
  induction gc with
  | nil => intro init; simp
  | cons hd t ih => intro init; simp [ih, List.append_assoc]

/-- **C7.** The legacy report is the `all` group's summary and lists
verbatim when that group exists, and otherwise the concatenation of every
group's lists paired with the grouped report's aggregate summary. -/
theorem c7_legacy_report (gc : List (String × GroupEntry)) :
    (∀ a, List.lookup "all" gc = some a →
      generateLegacyCompatibleReport gc (generateGroupedReport gc) =
        { summary := LegacySummary.group a.summary,
          changes := { breaking := a.breaking, newEndpoints := a.newEndpoints,
                       modifiedEndpoints := a.modifiedEndpoints } }) ∧
    (List.lookup "all" gc = none →
      generateLegacyCompatibleReport gc (generateGroupedReport gc) =
        { summary := LegacySummary.overall (calculateOverallSummary gc),
          changes := { breaking := (gc.map (fun g => g.2.breaking)).flatten,
                       newEndpoints := (gc.map (fun g => g.2.newEndpoints)).flatten,
                       modifiedEndpoints :=
                         (gc.map (fun g => g.2.modifiedEndpoints)).flatten } }) := by
  constructor
  · intro a h
    simp [generateLegacyCompatibleReport, h]
  · intro h
    simp [generateLegacyCompatibleReport, h, generateGroupedReport, foldl_reportChanges]

lemma foldl_overallTotals (gc : List (String × GroupEntry)) :
    ∀ init : OverallSummary,
      gc.foldl (fun acc g =>
        { acc with
          totalBreakingChanges := acc.totalBreakingChanges + g.2.summary.breakingChanges,
          totalNewEndpoints := acc.totalNewEndpoints + g.2.summary.newEndpoints,
          totalModifiedEndpoints :=
            acc.totalModifiedEndpoints + g.2.summary.modifiedEndpoints }) init =
      { totalBreakingChanges :=
          init.totalBreakingChanges + (gc.map (fun g => g.2.summary.breakingChanges)).sum,
        totalNewEndpoints :=
          init.totalNewEndpoints + (gc.map (fun g => g.2.summary.newEndpoints)).sum,
        totalModifiedEndpoints :=
          init.totalModifiedEndpoints + (gc.map (fun g => g.2.summary.modifiedEndpoints)).sum,
        overallRiskLevel := init.overallRiskLevel } := by
  induction gc with
  | nil => intro init; simp
  | cons hd t ih => intro init; simp [ih, Nat.add_assoc]

/-- **C8.** The aggregate summary sums the per-group counts and rates them
with the aggregate thresholds of §4.3, which differ from the per-group
thresholds (witnessed at 6 breaking changes and at 15 modified
endpoints). -/
theorem c8_aggregate_risk (gc : List (String × GroupEntry)) :
    calculateOverallSummary gc =
      { totalBreakingChanges := (gc.map (fun g => g.2.summary.breakingChanges)).sum,
        totalNewEndpoints := (gc.map (fun g => g.2.summary.newEndpoints)).sum,
        totalModifiedEndpoints := (gc.map (fun g => g.2.summary.modifiedEndpoints)).sum,
        overallRiskLevel :=
          aggregateClassifySpec (gc.map (fun g => g.2.summary.breakingChanges)).sum
            (gc.map (fun g => g.2.summary.modifiedEndpoints)).sum } ∧
    aggregateClassifySpec 6 0 = "high" ∧ calculateRiskLevel 6 0 = "critical" ∧
    aggregateClassifySpec 0 15 = "low" ∧ calculateRiskLevel 0 15 = "medium" := by
  refine ⟨?_, by norm_num [aggregateClassifySpec], by norm_num [calculateRiskLevel],
    by norm_num [aggregateClassifySpec], by norm_num [calculateRiskLevel]⟩
  unfold calculateOverallSummary
  rw [foldl_overallTotals]
  simp only [Nat.zero_add]
  unfold aggregateClassifySpec
  split_ifs <;> rfl

/-- **C9.** A group whose analysis throws is recorded with the fallback
entry — empty lists, zero counts, risk `'unknown'`, the message in
`groupInfo.error` — and the batch result decomposes around it, so the
groups before and after it are analyzed exactly as they would be anyway. -/
theorem c9_group_failure_isolation (runDetector : Group → Except String Changes)
    (pre post : List Group) (g : Group) (msg : String)
    (h : runDetector g = Except.error msg) :
    analyzeAllGroups runDetector (pre ++ g :: post) =
      analyzeAllGroups runDetector pre ++
        (g.name, errorEntry g msg) :: analyzeAllGroups runDetector post ∧
    (errorEntry g msg).summary =
      { breakingChanges := 0, newEndpoints := 0, modifiedEndpoints := 0,
        riskLevel := "unknown" } ∧
    (errorEntry g msg).groupInfo.error = some msg ∧
    (errorEntry g msg).breaking = [] ∧
    (errorEntry g msg).newEndpoints = [] ∧
    (errorEntry g msg).modifiedEndpoints = [] := by
  refine ⟨?_, rfl, rfl, rfl, rfl, rfl⟩
  simp [analyzeAllGroups, h]

def c9RunDetector : Group → Except String Changes :=
  fun g => if g.name = "bad" then Except.error "boom" else Except.ok initialChanges

def c9GoodGroup : Group :=
  { name := "good", displayName := "Good API",
    newPath := "new/apiDocs-good.json", oldPath := some "old/apiDocs-good.json" }

def c9BadGroup : Group :=
  { name := "bad", displayName := "Bad API",
    newPath := "new/apiDocs-bad.json", oldPath := none }

def c9TailGroup : Group :=
  { name := "tail", displayName := "Tail API",
    newPath := "new/apiDocs-tail.json", oldPath := some "old/apiDocs-tail.json" }

theorem c9_witness :
    c9RunDetector c9BadGroup = Except.error "boom" ∧
    (analyzeAllGroups c9RunDetector ([c9GoodGroup] ++ c9BadGroup :: [c9TailGroup]) =
      analyzeAllGroups c9RunDetector [c9GoodGroup] ++
        (c9BadGroup.name, errorEntry c9BadGroup "boom") ::
          analyzeAllGroups c9RunDetector [c9TailGroup] ∧
    (errorEntry c9BadGroup "boom").summary =
      { breakingChanges := 0, newEndpoints := 0, modifiedEndpoints := 0,
        riskLevel := "unknown" } ∧
    (errorEntry c9BadGroup "boom").groupInfo.error = some "boom" ∧
    (errorEntry c9BadGroup "boom").breaking = [] ∧
    (errorEntry c9BadGroup "boom").newEndpoints = [] ∧
    (errorEntry c9BadGroup "boom").modifiedEndpoints = []) :=
  ⟨rfl, c9_group_failure_isolation c9RunDetector [c9GoodGroup] [c9TailGroup] c9BadGroup "boom" rfl⟩

def c7AllEntry : GroupEntry :=
  { breaking := [{ type := "ENDPOINT_REMOVED", path := "/a", method := "GET",
                   description := "엔드포인트가 삭제되었습니다" }],
    newEndpoints := [{ path := "/b", method := "POST", summary := "B" }],
    modifiedEndpoints := [],
    summary := { breakingChanges := 1, newEndpoints := 1, modifiedEndpoints := 0,
                 riskLevel := "medium" },
    groupInfo := { name := "all", displayName := "Complete API", hasOldVersion := true,
                   newFilePath := some "new/apiDocs-all.json",
                   oldFilePath := some "old/apiDocs-all.json" } }

def c7XEntry : GroupEntry :=
  { breaking := [],
    newEndpoints := [{ path := "/x", method := "GET", summary := "X" }],
    modifiedEndpoints := [],
    summary := { breakingChanges := 0, newEndpoints := 1, modifiedEndpoints := 0,
                 riskLevel := "low" },
    groupInfo := { name := "x", displayName := "X API", hasOldVersion := false,
                   newFilePath := some "new/apiDocs-x.json", oldFilePath := none } }

def c7YEntry : GroupEntry :=
  { breaking := [{ type := "METHOD_REMOVED", path := "/y", method := "DELETE",
                   description := "HTTP 메서드가 삭제되었습니다" }],
    newEndpoints := [],
    modifiedEndpoints := [{ path := "/y", method := "GET", changes := ["Summary updated"] }],
    summary := { breakingChanges := 1, newEndpoints := 0, modifiedEndpoints := 1,
                 riskLevel := "medium" },
    groupInfo := { name := "y", displayName := "Y API", hasOldVersion := true,
                   newFilePath := some "new/apiDocs-y.json",
                   oldFilePath := some "old/apiDocs-y.json" } }

def c7GcA : List (String × GroupEntry) := [("all", c7AllEntry)]

def c7GcB : List (String × GroupEntry) := [("x", c7XEntry), ("y", c7YEntry)]

theorem c7_witness :
    (List.lookup "all" c7GcA = some c7AllEntry ∧
      generateLegacyCompatibleReport c7GcA (generateGroupedReport c7GcA) =
        { summary := LegacySummary.group c7AllEntry.summary,
          changes := { breaking := c7AllEntry.breaking,
                       newEndpoints := c7AllEntry.newEndpoints,
                       modifiedEndpoints := c7AllEntry.modifiedEndpoints } }) ∧
    (List.lookup "all" c7GcB = none ∧
      generateLegacyCompatibleReport c7GcB (generateGroupedReport c7GcB) =
        { summary := LegacySummary.overall (calculateOverallSummary c7GcB),
          changes := { breaking := (c7GcB.map (fun g => g.2.breaking)).flatten,
                       newEndpoints := (c7GcB.map (fun g => g.2.newEndpoints)).flatten,
                       modifiedEndpoints :=
                         (c7GcB.map (fun g => g.2.modifiedEndpoints)).flatten } }) :=
  ⟨⟨rfl, (c7_legacy_report c7GcA).1 c7AllEntry rfl⟩,
   ⟨rfl, (c7_legacy_report c7GcB).2 rfl⟩⟩

lemma hasSchemaBreakingChanges_self (s : Option Schema) :
    hasSchemaBreakingChanges s s = false := by
  cases s with
  | none => rfl
  | some o =>
      simp only [hasSchemaBreakingChanges, Bool.or_eq_false_iff]
      constructor <;>
        · rw [List.any_eq_false]
          intro prop hp
          simp [List.contains, hp]

lemma checkRequiredParameters_self (p m : String) (op : Operation) :
    checkRequiredParameters p m op op = [] := by
  simp only [checkRequiredParameters]
  rw [List.filterMap_eq_nil_iff]
  intro k hk
  have hmem := mem_of_mem_dedupFirst hk
  simp [hmem]

lemma checkResponseChanges_self (p m : String) (op : Operation) :
    checkResponseChanges p m op op = [] := by
  simp only [checkResponseChanges]
  rw [List.filterMap_eq_nil_iff]
  intro sc hsc
  by_cases hc : strStartsWith sc "2" ∧ (((op.responses.getD []).lookup sc)).isSome
  · rcases hl : (op.responses.getD []).lookup sc with _ | r
    · simp [hc, hl]
    · simp [hc, hl, hasSchemaBreakingChanges_self]
  · rw [if_neg hc]

lemma detectNewEndpoints_self (d : Document) : detectNewEndpoints d d = [] := by
  simp only [detectNewEndpoints]
  rw [List.flatMap_eq_nil_iff]
  intro p hp
  simp only [keysOf] at hp
  rw [if_neg (by simp [keysOf, hp])]
  rw [List.filterMap_eq_nil_iff]
  intro meth hm
  rw [if_neg (by simp [hm])]

lemma detectBreakingChanges_self (d : Document) : detectBreakingChanges d d = [] := by
  simp only [detectBreakingChanges]
  rw [List.flatMap_eq_nil_iff]
  intro p hp
  obtain ⟨item, hitem⟩ := lookup_eq_some_of_mem_keys hp
  rw [if_neg (by simp [hitem])]
  rw [List.flatMap_eq_nil_iff]
  intro meth hm
  rw [hitem] at hm ⊢
  simp only [Option.getD_some] at hm ⊢
  by_cases hpar : meth = "parameters"
  · rw [if_pos hpar]
  · rw [if_neg hpar]
    obtain ⟨op, hop⟩ := lookup_eq_some_of_mem_keys hm
    rw [hop]
    simp [checkRequiredParameters_self, checkResponseChanges_self]

lemma detectModifiedEndpoints_self (d : Document) : detectModifiedEndpoints d d = [] := by
  simp only [detectModifiedEndpoints]
  rw [List.flatMap_eq_nil_iff]
  intro p hp
  obtain ⟨item, hitem⟩ := lookup_eq_some_of_mem_keys hp
  rw [hitem]
  simp only [Option.isNone_some, Bool.false_eq_true, if_false, Option.getD_some]
  rw [List.filterMap_eq_nil_iff]
  intro meth hm
  by_cases hpar : meth = "parameters"
  · rw [if_pos hpar]
  · rw [if_neg hpar]
    obtain ⟨op, hop⟩ := lookup_eq_some_of_mem_keys hm
    rw [hop]
    simp

/-- **C1.** Comparing two structurally identical documents yields the
empty change set: no breaking changes, no new endpoints, no modified
endpoints, all summary counts `0`, and risk level `'low'`. -/
theorem c1_identical_documents_empty_low (d : Document) :
    analyze (some d) (some d) = initialChanges := by
  simp [analyze, detectNewEndpoints_self, detectBreakingChanges_self,
    detectModifiedEndpoints_self, initialChanges, calculateRiskLevel]

lemma hasSchemaBreakingChanges_none {a b : Option Schema} (h : a = none ∨ b = none) :
    hasSchemaBreakingChanges a b = false := by
  rcases h with h | h
  · subst h; cases b <;> rfl
  · subst h; cases a <;> rfl

/-- **C10.** For a 2xx status code present in both matched operations'
response maps, no `RESPONSE_SCHEMA_CHANGED` record is emitted when either
side yields no extractable schema (no JSON content schema, no XML content
schema, no bare `schema` field). -/
theorem c10_no_schema_record_without_schema (p m : String)
    (oldOperation newOperation : Operation) (code : String) (oldR newR : Response)
    (h1 : (oldOperation.responses.getD []).lookup code = some oldR)
    (h2 : (newOperation.responses.getD []).lookup code = some newR)
    (h3 : strStartsWith code "2" = true)
    (h4 : extractResponseSchema oldR = none ∨ extractResponseSchema newR = none) :
    ∀ rec ∈ checkResponseChanges p m oldOperation newOperation,
      rec.statusCode ≠ some code := by
  intro rec hrec
  simp only [checkResponseChanges] at hrec
  rw [List.mem_filterMap] at hrec
  obtain ⟨sc, hsc, hfn⟩ := hrec
  by_cases hceq : sc = code
  · subst hceq
    rw [h1, h2] at hfn
    rw [if_pos ⟨h3, rfl⟩] at hfn
    simp [hasSchemaBreakingChanges_none h4] at hfn
  · have hstat : rec.statusCode = some sc := by
      split at hfn
      · split at hfn
        · split at hfn
          · injection hfn with hfn
            rw [← hfn]
          · exact absurd hfn (by simp)
        · exact absurd hfn (by simp)
      · exact absurd hfn (by simp)
    rw [hstat]
    simp [hceq]

def c10OldOp : Operation :=
  { summary := some "List items", description := none, parameters := none,
    responses := some [("200", { content := none, schema := none })] }

def c10NewOp : Operation :=
  { summary := some "List items", description := none, parameters := none,
    responses := some [("200",
      { content := some [("application/json",
          { schema := some { properties := some ["id"], required := some ["id"] } })],
        schema := none })] }

theorem c10_witness :
    ((c10OldOp.responses.getD []).lookup "200" =
        some { content := none, schema := none } ∧
      (c10NewOp.responses.getD []).lookup "200" =
        some { content := some [("application/json",
                 { schema := some { properties := some ["id"], required := some ["id"] } })],
               schema := none } ∧
      strStartsWith "200" "2" = true ∧
      (extractResponseSchema { content := none, schema := none } = none ∨
        extractResponseSchema
          { content := some [("application/json",
              { schema := some { properties := some ["id"], required := some ["id"] } })],
            schema := none } = none)) ∧
    (∀ rec ∈ checkResponseChanges "/items" "get" c10OldOp c10NewOp,
      rec.statusCode ≠ some "200") :=
  ⟨⟨rfl, rfl, rfl, Or.inl rfl⟩,
   c10_no_schema_record_without_schema "/items" "get" c10OldOp c10NewOp "200"
     { content := none, schema := none }
     { content := some [("application/json",
         { schema := some { properties := some ["id"], required := some ["id"] } })],
       schema := none }
     rfl rfl rfl (Or.inl rfl)⟩

/-- A string with no `':'` in it — the parameter-key encoding
`location:name` of `checkRequiredParameters` is only invertible for such
locations and names. -/
def colonFree (s : String) : Prop := ':' ∉ s.data

instance (s : String) : Decidable (colonFree s) :=
  inferInstanceAs (Decidable (':' ∉ s.data))

/-- The `(location, name)` pairs of an operation's required parameters,
in parameter order. -/
def requiredPairs (op : Operation) : List (String × String) :=
  ((op.parameters.getD []).filter (·.required)).map (fun q => (q.location, q.name))

/-- The record §4.2 step 3 promises for an added required parameter. -/
def expectedRequiredParamRecord (path method location name : String) : BreakingChange :=
  { type := "REQUIRED_PARAMETER_ADDED", path := path, method := jsToUpperCase method,
    parameter := some { name := name, location := location },
    description := "필수 파라미터가 추가되었습니다: " ++ name ++ " (" ++ location ++ ")" }

lemma splitColonChars_no_colon :
    ∀ (l acc : List Char), ':' ∉ l → splitColonChars l acc = [acc ++ l] := by
  intro l
  induction l with
  | nil => intro acc _; simp [splitColonChars]
  | cons c cs ih =>
      intro acc h
      have hc : ¬ c = ':' := fun hcc => h (hcc ▸ List.mem_cons_self _ _)
      rw [splitColonChars, if_neg hc, ih (acc ++ [c]) (fun hm => h (List.mem_cons_of_mem _ hm))]
      simp

lemma splitColonChars_append_colon :
    ∀ (l r acc : List Char), ':' ∉ l →
      splitColonChars (l ++ ':' :: r) acc = (acc ++ l) :: splitColonChars r [] := by
  intro l
  induction l with
  | nil => intro r acc _; simp [splitColonChars]
  | cons c cs ih =>
      intro r acc h
      have hc : ¬ c = ':' := fun hcc => h (hcc ▸ List.mem_cons_self _ _)
      rw [List.cons_append, splitColonChars, if_neg hc,
        ih r (acc ++ [c]) (fun hm => h (List.mem_cons_of_mem _ hm))]
      simp

lemma jsSplitColon_encode (location name : String)
    (h1 : colonFree location) (h2 : colonFree name) :
    jsSplitColon (location ++ ":" ++ name) = [location, name] := by
  unfold jsSplitColon
  have hdata : (location ++ ":" ++ name).data = location.data ++ ':' :: name.data := by
    rw [String.data_append, String.data_append]
    simp [show (":" : String).data = [':'] from rfl]
  rw [hdata, splitColonChars_append_colon _ _ _ h1, splitColonChars_no_colon _ _ h2]
  simp

lemma append_colon_inj :
    ∀ (l1 : List Char) {n1 : List Char} (l2 : List Char) {n2 : List Char},
      ':' ∉ l1 → ':' ∉ l2 → l1 ++ ':' :: n1 = l2 ++ ':' :: n2 → l1 = l2 ∧ n1 = n2 := by
  intro l1
  induction l1 with
  | nil =>
      intro n1 l2 n2 _ h2 h
      cases l2 with
      | nil => simpa using h
      | cons b t =>
          simp only [List.nil_append, List.cons_append, List.cons.injEq] at h
          exact absurd (h.1 ▸ List.mem_cons_self _ _) h2
  | cons a t ih =>
      intro n1 l2 n2 h1 h2 h
      cases l2 with
      | nil =>
          simp only [List.cons_append, List.nil_append, List.cons.injEq] at h
          exact absurd (h.1 ▸ List.mem_cons_self _ _) h1
      | cons b t2 =>
          simp only [List.cons_append, List.cons.injEq] at h
          obtain ⟨hab, hrest⟩ := h
          obtain ⟨hts, hns⟩ := ih t2 (fun hm => h1 (List.mem_cons_of_mem _ hm))
            (fun hm => h2 (List.mem_cons_of_mem _ hm)) hrest
          exact ⟨by rw [hab, hts], hns⟩

lemma encode_inj {loc1 name1 loc2 name2 : String}
    (h1 : colonFree loc1) (h2 : colonFree loc2)
    (h : loc1 ++ ":" ++ name1 = loc2 ++ ":" ++ name2) : loc1 = loc2 ∧ name1 = name2 := by
  have hdata : loc1.data ++ ':' :: name1.data = loc2.data ++ ':' :: name2.data := by
    have := congrArg String.data h
    rwa [String.data_append, String.data_append, String.data_append, String.data_append,
      show (":" : String).data = [':'] from rfl, List.append_assoc, List.append_assoc,
      List.singleton_append, List.singleton_append] at this
  obtain ⟨hl, hn⟩ := append_colon_inj loc1.data loc2.data h1 h2 hdata
  exact ⟨String.ext hl, String.ext hn⟩

lemma mem_swap {α : Type} {x a : α} {s t : List α} (h : x ∈ a :: (s ++ t)) :
    x ∈ s ++ a :: t := by
  rcases List.mem_cons.mp h with h | h
  · exact List.mem_append.mpr (Or.inr (h ▸ List.mem_cons_self _ _))
  · rcases List.mem_append.mp h with h | h
    · exact List.mem_append.mpr (Or.inl h)
    · exact List.mem_append.mpr (Or.inr (List.mem_cons_of_mem _ h))

lemma mem_widen {α : Type} {x a : α} {s t : List α} (h : x ∈ s ++ t) : x ∈ s ++ a :: t :=
  mem_swap (List.mem_cons_of_mem _ h)

lemma dedupFirstAux_map {α β : Type} [DecidableEq α] [DecidableEq β] (f : α → β) :
    ∀ (l seen : List α),
      (∀ a ∈ seen ++ l, ∀ b ∈ seen ++ l, f a = f b → a = b) →
      dedupFirstAux (seen.map f) (l.map f) = (dedupFirstAux seen l).map f := by
  intro l
  induction l with
  | nil => intro seen _; rfl
  | cons a t ih =>
      intro seen hinj
      have hmem : f a ∈ seen.map f ↔ a ∈ seen := by
        constructor
        · intro hm
          obtain ⟨b, hb, hfb⟩ := List.mem_map.mp hm
          have : b = a := hinj b (List.mem_append.mpr (Or.inl hb)) a
            (List.mem_append.mpr (Or.inr (List.mem_cons_self _ _))) hfb
          exact this ▸ hb
        · exact List.mem_map_of_mem f
      simp only [List.map_cons, dedupFirstAux]
      by_cases ha : a ∈ seen
      · rw [if_pos (hmem.mpr ha), if_pos ha]
        exact ih seen (fun x hx y hy => hinj x (mem_widen hx) y (mem_widen hy))
      · rw [if_neg (fun hm => ha (hmem.mp hm)), if_neg ha]
        have := ih (a :: seen) (fun x hx y hy => hinj x (mem_swap hx) y (mem_swap hy))
        rw [List.map_cons] at this
        rw [this, List.map_cons]

lemma dedupFirst_map {α β : Type} [DecidableEq α] [DecidableEq β] (f : α → β)
    (l : List α) (hinj : ∀ a ∈ l, ∀ b ∈ l, f a = f b → a = b) :
    dedupFirst (l.map f) = (dedupFirst l).map f :=
  dedupFirstAux_map f l [] (by simpa using hinj)

lemma filterMap_if {α β : Type} (l : List α) (P : α → Prop) [DecidablePred P] (f : α → β) :
    (l.filterMap fun a => if P a then some (f a) else none) =
      (l.filter fun a => decide (P a)).map f := by
  induction l with
  | nil => rfl
  | cons a t ih =>
      by_cases h : P a <;> simp [h, ih]

lemma requiredPairs_colonFree (op : Operation)
    (h : ∀ q ∈ op.parameters.getD [], colonFree q.location ∧ colonFree q.name) :
    ∀ pr ∈ requiredPairs op, colonFree pr.1 ∧ colonFree pr.2 := by
  intro pr hpr
  obtain ⟨q, hq, hq2⟩ := List.mem_map.mp hpr
  have := h q (List.mem_of_mem_filter hq)
  rw [← hq2]
  exact this

/-- **C4 (amended).** For matched operations whose parameter locations and
names are colon-free, `checkRequiredParameters` emits exactly one
`REQUIRED_PARAMETER_ADDED` record per deduplicated `(location, name)`
pair required in the new operation but not required in the old one, each
record carrying `parameter = \x7bname, location\x7d`.  (Without the
colon-free restriction the `location:name` key encoding is not
invertible: see the counterexample.) -/
theorem c4_required_parameter_added_amended (path method : String)
    (oldOperation newOperation : Operation)
    (h : ∀ q ∈ oldOperation.parameters.getD [] ++ newOperation.parameters.getD [],
      colonFree q.location ∧ colonFree q.name) :
    checkRequiredParameters path method oldOperation newOperation =
      ((dedupFirst (requiredPairs newOperation)).filter
        (fun pr => decide (pr ∉ requiredPairs oldOperation))).map
        (fun pr => expectedRequiredParamRecord path method pr.1 pr.2) := by
  have hold : ∀ pr ∈ requiredPairs oldOperation, colonFree pr.1 ∧ colonFree pr.2 :=
    requiredPairs_colonFree _ (fun q hq => h q (List.mem_append.mpr (Or.inl hq)))
  have hnew : ∀ pr ∈ requiredPairs newOperation, colonFree pr.1 ∧ colonFree pr.2 :=
    requiredPairs_colonFree _ (fun q hq => h q (List.mem_append.mpr (Or.inr hq)))
  simp only [checkRequiredParameters]
  have hmapold :
      ((oldOperation.parameters.getD []).filter (·.required)).map
          (fun p => p.location ++ ":" ++ p.name) =
        (requiredPairs oldOperation).map (fun pr => pr.1 ++ ":" ++ pr.2) := by
    simp [requiredPairs, List.map_map, Function.comp]
  have hmapnew :
      ((newOperation.parameters.getD []).filter (·.required)).map
          (fun p => p.location ++ ":" ++ p.name) =
        (requiredPairs newOperation).map (fun pr => pr.1 ++ ":" ++ pr.2) := by
    simp [requiredPairs, List.map_map, Function.comp]
  rw [hmapold, hmapnew]
  rw [dedupFirst_map _ _ (fun a ha b hb hfab =>
    Prod.ext (encode_inj (hnew a ha).1 (hnew b hb).1 hfab).1
      (encode_inj (hnew a ha).1 (hnew b hb).1 hfab).2)]
  rw [List.filterMap_map]
  rw [List.filterMap_congr (g := fun pr =>
    if pr ∉ requiredPairs oldOperation
    then some (expectedRequiredParamRecord path method pr.1 pr.2) else none) ?_]
  · exact filterMap_if _ _ _
  · intro pr hpr
    have hprcf := hnew pr (mem_of_mem_dedupFirst hpr)
    have hmemiff :
        (pr.1 ++ ":" ++ pr.2) ∈ (requiredPairs oldOperation).map (fun x => x.1 ++ ":" ++ x.2) ↔
          pr ∈ requiredPairs oldOperation := by
      constructor
      · intro hm
        obtain ⟨b, hb, hfb⟩ := List.mem_map.mp hm
        obtain ⟨h1, h2⟩ := encode_inj (hold b hb).1 hprcf.1 hfb
        have : b = pr := Prod.ext h1 h2
        exact this ▸ hb
      · intro hm
        exact List.mem_map_of_mem _ hm
    simp only [Function.comp]
    by_cases hmem : pr ∈ requiredPairs oldOperation
    · rw [if_neg (fun hng => hng (hmemiff.mpr hmem)), if_neg (fun hng => hng hmem)]
    · rw [if_pos (fun hg => hmem (hmemiff.mp hg)), if_pos hmem]
      rw [jsSplitColon_encode pr.1 pr.2 hprcf.1 hprcf.2]
      rfl

def c4OldOp : Operation :=
  { summary := none, description := none, parameters := some [], responses := none }

def c4BadNewOp : Operation :=
  { summary := none, description := none,
    parameters := some [{ name := "a:b", location := "query", required := true }],
    responses := none }

/-- **C4, counterexample.** With a required parameter named `a:b` added in
the new operation, the emitted record's `parameter` is
`\x7bname := "a", location := "query"\x7d` — the name is truncated at the
first colon of the `location:name` key — not the added parameter's
`(location, name)` pair as the claim states. -/
theorem c4_counterexample :
    checkRequiredParameters "/items" "get" c4OldOp c4BadNewOp ≠
      [expectedRequiredParamRecord "/items" "get" "query" "a:b"] ∧
    checkRequiredParameters "/items" "get" c4OldOp c4BadNewOp =
      [expectedRequiredParamRecord "/items" "get" "query" "a"] := by
  exact ⟨by decide, rfl⟩

def c4PageOldOp : Operation :=
  { summary := none, description := none, parameters := none, responses := none }

def c4PageNewOp : Operation :=
  { summary := none, description := none,
    parameters := some [{ name := "page", location := "query", required := true }],
    responses := none }

theorem c4_witness :
    (∀ q ∈ c4PageOldOp.parameters.getD [] ++ c4PageNewOp.parameters.getD [],
      colonFree q.location ∧ colonFree q.name) ∧
    checkRequiredParameters "/items" "get" c4PageOldOp c4PageNewOp =
      ((dedupFirst (requiredPairs c4PageNewOp)).filter
        (fun pr => decide (pr ∉ requiredPairs c4PageOldOp))).map
        (fun pr => expectedRequiredParamRecord "/items" "get" pr.1 pr.2) ∧
    checkRequiredParameters "/items" "get" c4PageOldOp c4PageNewOp =
      [expectedRequiredParamRecord "/items" "get" "query" "page"] :=
  ⟨by decide,
   c4_required_parameter_added_amended "/items" "get" c4PageOldOp c4PageNewOp (by decide),
   rfl⟩

def c6FsDirs : DirListing := [("new", ["apiDocs-api.json", "notes.txt"])]

/-- **C6 (code bug).** With the `oldDir` argument absent, `discoverGroups`
evaluates `this.oldVersionDir ? ... : \x7b\x7d`, so `oldGroups` is a plain
object and the first `newGroups.forEach` iteration throws
`TypeError: oldGroups.find is not a function` instead of completing with
`oldPath = null`.  When an old directory is named — even a nonexistent
one — discovery does succeed, one group per matching filename with the
prefix and extension stripped, and a group with no identically-named old
file gets `oldPath = none`. -/
theorem c6_code_bug_eval :
    discoverGroups c6FsDirs none "new" =
      Except.error "oldGroups.find is not a function" ∧
    discoverGroups c6FsDirs (some "old") "new" =
      Except.ok [("api", { name := "api", displayName := "Public API",
                           newPath := "new/apiDocs-api.json", oldPath := none })] ∧
    discoverGroups [("new", ["apiDocs-api.json"]), ("old", ["apiDocs-api.yaml"])]
        (some "old") "new" =
      Except.ok [("api", { name := "api", displayName := "Public API",
                           newPath := "new/apiDocs-api.json",
                           oldPath := some "old/apiDocs-api.yaml" })] := by
  exact ⟨rfl, rfl, rfl⟩

end OpenApiDiff
